import Mathlib

/-
Verification of the healthcheck concurrent probing core.

Shallow embedding of the Go sources:
  src/internal/config/config.go      (Config, DefaultConfig)
  src/internal/web/server.go         (checker package: CheckResult, rateLimiter,
                                      NewChecker redirect policy, CheckURL,
                                      CheckURLWithRetry, CheckURLs)
  src/internal/stats/stats.go        (Statistics, CalculateStatistics)

Modelling conventions:
  - time.Duration values are abstract integer time units (Int), matching the
    int64 nanosecond representation up to choice of unit.
  - Network and OS behaviour for one attempt (URL parse outcome, DNS lookup
    outcome and duration, request construction outcome, HTTP round trip
    outcome with its elapsed time) is an environment value AttemptEnv supplied
    to the embedded CheckURL; the function itself is the translation of the
    Go control flow over that environment.
  - Side effects that the Go code performs (rate limiter waits, DNS lookup,
    issuing the HTTP request) are returned as an explicit effect trace.
  - The CheckResult Timestamp field is wall clock metadata used by no claim
    and is not modelled.
  - Mutex guarded shared state (the rate limiter counter, the completed
    counter of the dispatcher) is modelled by a serialized event list: the Go
    mutex makes every concurrent interleaving equivalent to some such list.
-/

namespace HealthCheck

/-- Config from src/internal/config/config.go; durations in abstract units
(the Go code stores nanoseconds; DefaultConfig uses seconds here). -/
structure Config where
  timeout : Int := 30
  concurrency : Int := 10
  retries : Int := 3
  maxLatency : Int := 30
  domainRate : Int := 5
  globalRate : Int := 50
  noColor : Bool := false
  verbose : Bool := false
  insecure : Bool := false
  deriving Repr, DecidableEq

/-- DefaultConfig from src/internal/config/config.go. -/
def DefaultConfig : Config :=
  { timeout := 30, concurrency := 10, retries := 3, maxLatency := 30,
    domainRate := 5, globalRate := 50, noColor := false, verbose := false,
    insecure := false }

/-- CheckResult from the checker package (src/internal/web/server.go,
second file section). Timestamp is not modelled. -/
structure CheckResult where
  url : String := ""
  statusCode : Int := 0
  responseTime : Int := 0
  latency : Int := 0
  error : String := ""
  errorMessage : String := ""
  success : Bool := false
  deriving Repr, DecidableEq

/-- Outcome of the HTTP round trip c.httpClient.Do(req) for one attempt:
either a transport error (with its message and the elapsed time until the
error surfaced) or a received response (status code, status text, elapsed
time). -/
inductive HTTPOutcome where
  | transportError (msg : String) (elapsed : Int)
  | response (code : Int) (status : String) (elapsed : Int)
  deriving Repr, DecidableEq

/-- Elapsed response time of the round trip, in either case. -/
def httpElapsed : HTTPOutcome → Int
  | HTTPOutcome.transportError _ t => t
  | HTTPOutcome.response _ _ t => t

/-- Environment for one attempt of CheckURL: everything the outside world
decides. dnsOk records whether net.LookupHost returned an error; the Go code
assigns that error to a variable it then overwrites without reading, so
CheckURL never consults dnsOk. reqCreateOk records whether
http.NewRequestWithContext failed; in Go it reparses the URL with the same
parser as url.Parse, so after a successful parse this is always true, but the
branch exists in the source and is kept. -/
structure AttemptEnv where
  parseOk : Bool := true
  parseErrMsg : String := ""
  hostname : String := ""
  dnsOk : Bool := true
  dnsDuration : Int := 0
  reqCreateOk : Bool := true
  reqErrMsg : String := ""
  outcome : HTTPOutcome := HTTPOutcome.transportError "" 0
  deriving Repr, DecidableEq

/-- Observable side effects of one CheckURL attempt, in program order. -/
inductive Effect where
  | waitGlobalPermit
  | waitDomainPermit (domain : String)
  | dnsLookup (host : String)
  | httpRequest (url : String)
  deriving Repr, DecidableEq

/-- CheckURL from src/internal/web/server.go (checker package): one attempt
against one URL, returning the CheckResult together with the trace of side
effects performed. Control flow is translated branch for branch:
parse failure returns at once; then the global and per domain rate limiter
waits; then the DNS lookup (its error is ignored, its duration kept); then
request construction; then the round trip and the outcome classification. -/
def checkURL (cfg : Config) (targetURL : String) (env : AttemptEnv) :
    CheckResult × List Effect :=
  let result : CheckResult := { url := targetURL }
  if env.parseOk = false then
    ({ result with error := "invalid_url",
                   errorMessage := "URL parse error: " ++ env.parseErrMsg }, [])
  else
    let effs := [Effect.waitGlobalPermit, Effect.waitDomainPermit env.hostname,
                 Effect.dnsLookup env.hostname]
    let dnsDuration := env.dnsDuration
    if env.reqCreateOk = false then
      ({ result with error := "request_error",
                     errorMessage := "Request creation error: " ++ env.reqErrMsg },
       effs)
    else
      match env.outcome with
      | HTTPOutcome.transportError msg responseTime =>
          let result := { result with latency := dnsDuration + responseTime }
          if cfg.maxLatency ≤ responseTime then
            ({ result with error := "timeout",
                           errorMessage := "Response time exceeded " ++
                             toString cfg.maxLatency ++ ": " ++ msg },
             effs ++ [Effect.httpRequest targetURL])
          else
            ({ result with error := "request_failed", errorMessage := msg },
             effs ++ [Effect.httpRequest targetURL])
      | HTTPOutcome.response code status responseTime =>
          let result := { result with latency := dnsDuration + responseTime }
          if cfg.maxLatency < responseTime then
            ({ result with statusCode := code, responseTime := responseTime,
                           error := "timeout",
                           errorMessage := "Response time " ++
                             toString responseTime ++ " exceeded maximum " ++
                             toString cfg.maxLatency },
             effs ++ [Effect.httpRequest targetURL])
          else if 200 ≤ code ∧ code < 300 then
            ({ result with statusCode := code, responseTime := responseTime,
                           success := true },
             effs ++ [Effect.httpRequest targetURL])
          else
            ({ result with statusCode := code, responseTime := responseTime,
                           error := "http_error",
                           errorMessage := "HTTP " ++ toString code ++ ": " ++
                             status },
             effs ++ [Effect.httpRequest targetURL])

/-- Loop exit condition of CheckURLWithRetry, translated from
`result.Success || (result.Error != "timeout" && result.Error != "request_failed")`. -/
def shouldStop (r : CheckResult) : Bool :=
  r.success || (!(r.error == "timeout") && !(r.error == "request_failed"))

/-- The retry loop body of CheckURLWithRetry, one recursive step per loop
iteration. attempt is the Go loop counter, remaining the number of iterations
the loop bound `attempt <= Retries` still allows after this one, backoff the
current backoff value. Before each attempt after the first the Go code sleeps
backoff and doubles it; we record the slept delays in a list. Returns the
last attempt's result, the number of attempts performed from here on, and the
list of backoff sleeps performed. The environment maps the attempt index to
that attempt's AttemptEnv. -/
def retryLoop (cfg : Config) (targetURL : String) (env : Nat → AttemptEnv)
    (attempt : Nat) (remaining : Nat) (backoff : Int) :
    CheckResult × Nat × List Int :=
  let sleepsHere : List Int := if attempt = 0 then [] else [backoff]
  let nextBackoff : Int := if attempt = 0 then backoff else 2 * backoff
  let r := (checkURL cfg targetURL (env attempt)).1
  if shouldStop r then (r, 1, sleepsHere)
  else
    match remaining with
    | 0 => (r, 1, sleepsHere)
    | m + 1 =>
        let out := retryLoop cfg targetURL env (attempt + 1) m nextBackoff
        (out.1, out.2.1 + 1, sleepsHere ++ out.2.2)

/-- CheckURLWithRetry from src/internal/web/server.go (checker package).
The Go loop `for attempt := 0; attempt <= c.config.Retries; attempt++` with
Retries a Go int: when Retries < 0 the body never runs and the nil result
declared by `var result *CheckResult` is returned, modelled as none.
Otherwise the loop runs with initial backoff 1 (the Go code uses 1 second as
the time unit) and we return the last attempt's result together with the
attempt count and the backoff sleeps performed. -/
def CheckURLWithRetry (cfg : Config) (targetURL : String)
    (env : Nat → AttemptEnv) : Option CheckResult × Nat × List Int :=
  if cfg.retries < 0 then (none, 0, [])
  else
    let out := retryLoop cfg targetURL env 0 cfg.retries.toNat 1
    (some out.1, out.2.1, out.2.2)

/-- The progress updates of CheckURLs: each finished task, inside one mutex
guarded critical section, increments the shared completed counter and sends
its new value on the progress channel. Folding over the tasks in the order
they enter that critical section yields the progress stream. -/
def progressOf : List (Option CheckResult) → Int → List Int
  | [], _ => []
  | _ :: ts, completed => (completed + 1) :: progressOf ts (completed + 1)

/-- CheckURLs from src/internal/web/server.go (checker package): one
goroutine per URL, bounded by the concurrency semaphore; each task runs
CheckURLWithRetry, sends its result, then increments the completed counter
and reports progress. The scheduler is modelled by the completion order, a
permutation of the task indices; env gives task i its per attempt
environment. Both channels are closed only after wg.Wait, so the returned
lists are the complete streams. -/
def CheckURLs (cfg : Config) (urls : List String)
    (env : Nat → Nat → AttemptEnv) (order : List Nat) :
    List (Option CheckResult) × List Int :=
  let results := order.map
    (fun i => (CheckURLWithRetry cfg (urls.getD i "") (env i)).1)
  (results, progressOf results 0)

/-- allow from src/internal/web/server.go (rateLimiter): under the mutex, if
count < limit then increment count and grant, else deny. Returns the grant
decision and the new counter value. -/
def allow (limit : Int) (count : Int) : Bool × Int :=
  if count < limit then (true, count + 1) else (false, count)

/-- Serialized events on one rate limiter: an allow call by some caller, or
one tick of the background resetCounter goroutine (which zeroes count). The
mutex inside allow and resetCounter serializes every concurrent history into
such a list. -/
inductive RLEvent where
  | allowCall
  | resetTick
  deriving Repr, DecidableEq

/-- Run a rate limiter with the given limit from counter value count over a
serialized event list; returns the final counter and the list of grant
decisions of the allow calls, in order. -/
def rlRun (limit : Int) : Int → List RLEvent → Int × List Bool
  | count, [] => (count, [])
  | count, RLEvent.allowCall :: es =>
      let ab := allow limit count
      let rest := rlRun limit ab.2 es
      (rest.1, ab.1 :: rest.2)
  | _, RLEvent.resetTick :: es => rlRun limit 0 es

/-- The CheckRedirect policy installed by NewChecker
(src/internal/web/server.go): it errors when the list of requests made so
far has length at least 3. -/
def stopAfterRedirects (viaCount : Nat) : Bool := 3 ≤ viaCount

/-- Model of the Go net/http client redirect loop under the policy above:
the client has already made viaCount requests; redirects is the number of
redirect responses the target still answers with before a final response.
For each redirect the client consults CheckRedirect with the requests made
so far and aborts with a transport error (surfaced from Client.Do) when the
policy refuses; otherwise it issues the next request. On success it returns
the total number of requests made. -/
def followChain (redirects : Nat) (viaCount : Nat) : Except String Nat :=
  match redirects with
  | 0 => Except.ok viaCount
  | r + 1 =>
      if stopAfterRedirects viaCount then
        Except.error "stopped after 3 redirects"
      else
        followChain r (viaCount + 1)

/-- Statistics from src/internal/stats/stats.go. The Go SuccessRate is a
float64 percentage; it is modelled as an exact rational. All other duration
fields are Go int64 durations, modelled as Int. -/
structure Statistics where
  totalRequests : Nat := 0
  successCount : Nat := 0
  failureCount : Nat := 0
  successRate : ℚ := 0
  avgResponseTime : Int := 0
  minResponseTime : Int := 0
  maxResponseTime : Int := 0
  avgLatency : Int := 0
  minLatency : Int := 0
  maxLatency : Int := 0
  totalDuration : Int := 0
  deriving Repr, DecidableEq

/-- First element then fold of the Go min update
`if rt < min { min = rt }` over the whole list; 0 for an empty list (the Go
code leaves the zero value in place then). -/
def minOfList : List Int → Int
  | [] => 0
  | h :: t => t.foldl min h

/-- First element then fold of the Go max update over the whole list. -/
def maxOfList : List Int → Int
  | [] => 0
  | h :: t => t.foldl max h

/-- CalculateStatistics from src/internal/stats/stats.go. An empty result
list returns the zero Statistics at once (in particular TotalDuration stays
0 there, whatever the argument). Otherwise: one pass over the results
partitions them by Success, accumulating the successful response times and
latencies; SuccessRate = SuccessCount / TotalRequests * 100; the average is
the Go integer (truncating) division of the accumulated total by the number of successes;
min and max start from the first successful sample. Division by zero never
occurs: the averages are guarded by nonemptiness of the success lists. -/
def CalculateStatistics (results : List CheckResult) (totalDuration : Int) :
    Statistics :=
  if results.length = 0 then {}
  else
    let successes := results.filter (fun r => r.success)
    let failures := results.filter (fun r => !r.success)
    let srt := successes.map (fun r => r.responseTime)
    let slat := successes.map (fun r => r.latency)
    { totalRequests := results.length
      successCount := successes.length
      failureCount := failures.length
      successRate :=
        if results.length > 0 then
          (successes.length : ℚ) / (results.length : ℚ) * 100
        else 0
      avgResponseTime :=
        if srt.length > 0 then Int.tdiv srt.sum (srt.length : Int) else 0
      minResponseTime := if srt.length > 0 then minOfList srt else 0
      maxResponseTime := if srt.length > 0 then maxOfList srt else 0
      avgLatency :=
        if slat.length > 0 then Int.tdiv slat.sum (slat.length : Int) else 0
      minLatency := if slat.length > 0 then minOfList slat else 0
      maxLatency := if slat.length > 0 then maxOfList slat else 0
      totalDuration := totalDuration }

/-! Sample values used by the closed witness theorems. -/

/-- A configuration with a small latency bound and 2 retries. -/
def cfgTimeout : Config := { maxLatency := 5, retries := 2 }

/-- An attempt whose round trip fails in transport after 10 units, past the
latency bound of cfgTimeout, hence classified timeout. -/
def envTimeoutAttempt : AttemptEnv :=
  { hostname := "a", outcome := HTTPOutcome.transportError "dial tcp refused" 10 }

/-- An attempt answered 200 OK within the bound. -/
def envOkAttempt : AttemptEnv :=
  { hostname := "a", dnsDuration := 4,
    outcome := HTTPOutcome.response 200 "200 OK" 3 }

/-- An attempt answered 200 OK but too late: success is overridden. -/
def envLateOkAttempt : AttemptEnv :=
  { hostname := "a", outcome := HTTPOutcome.response 200 "200 OK" 10 }

/-- An attempt whose URL fails to parse. -/
def envBadURLAttempt : AttemptEnv := { parseOk := false, parseErrMsg := "bad" }

/-- A failed probe result, for statistics witnesses. -/
def failedResult : CheckResult :=
  { url := "https://x", error := "timeout", success := false }

/-- C9: an input whose URL parsing fails makes CheckURL return at once with
kind invalid_url and success false, performing no rate limit interaction, no
DNS lookup and no HTTP request (its effect trace is empty). -/
theorem checkURL_invalid_url_isolated (cfg : Config) (targetURL : String)
    (env : AttemptEnv) (hp : env.parseOk = false) :
    (checkURL cfg targetURL env).1.error = "invalid_url" ∧
    (checkURL cfg targetURL env).1.success = false ∧
    (checkURL cfg targetURL env).2 = [] := by
  simp [checkURL, hp]

/-- Witness for checkURL_invalid_url_isolated at a concrete input. -/
theorem checkURL_invalid_url_isolated_witness :
    (checkURL DefaultConfig "not-a-url" envBadURLAttempt).1.error =
      "invalid_url" ∧
    (checkURL DefaultConfig "not-a-url" envBadURLAttempt).1.success = false ∧
    (checkURL DefaultConfig "not-a-url" envBadURLAttempt).2 = [] :=
  checkURL_invalid_url_isolated DefaultConfig "not-a-url" envBadURLAttempt rfl

/-- C2: outcome classification of one attempt that got past URL parsing and
request construction. A transport error is request_failed, unless the
elapsed time already reached MaxLatency, then timeout. A response arriving
strictly later than MaxLatency is timeout with status code and response time
still recorded. A response within the bound is a success exactly for a 2xx
status, with no error kind; otherwise http_error with the numeric code and
status text in the detail. -/
theorem checkURL_classification (cfg : Config) (targetURL : String)
    (env : AttemptEnv) (hp : env.parseOk = true)
    (hq : env.reqCreateOk = true) :
    (∀ msg rt, env.outcome = HTTPOutcome.transportError msg rt →
      (checkURL cfg targetURL env).1.error =
        (if cfg.maxLatency ≤ rt then "timeout" else "request_failed") ∧
      (checkURL cfg targetURL env).1.success = false) ∧
    (∀ code status rt, env.outcome = HTTPOutcome.response code status rt →
      (cfg.maxLatency < rt →
        (checkURL cfg targetURL env).1.error = "timeout" ∧
        (checkURL cfg targetURL env).1.statusCode = code ∧
        (checkURL cfg targetURL env).1.responseTime = rt ∧
        (checkURL cfg targetURL env).1.success = false) ∧
      (rt ≤ cfg.maxLatency → 200 ≤ code → code < 300 →
        (checkURL cfg targetURL env).1.success = true ∧
        (checkURL cfg targetURL env).1.error = "" ∧
        (checkURL cfg targetURL env).1.statusCode = code ∧
        (checkURL cfg targetURL env).1.responseTime = rt) ∧
      (rt ≤ cfg.maxLatency → ¬(200 ≤ code ∧ code < 300) →
        (checkURL cfg targetURL env).1.success = false ∧
        (checkURL cfg targetURL env).1.error = "http_error" ∧
        (checkURL cfg targetURL env).1.errorMessage =
          "HTTP " ++ toString code ++ ": " ++ status)) := by
  constructor
  · intro msg rt ho
    simp [checkURL, hp, hq, ho]
    split <;> simp
  · intro code status rt ho
    refine ⟨?_, ?_, ?_⟩
    · intro hlt
      simp [checkURL, hp, hq, ho, hlt]
    · intro hle h200 h300
      have hnot : ¬ cfg.maxLatency < rt := not_lt.mpr hle
      simp [checkURL, hp, hq, ho, hnot, h200, h300]
    · intro hle hout
      have hnot : ¬ cfg.maxLatency < rt := not_lt.mpr hle
      simp [checkURL, hp, hq, ho, hnot, hout]

/-- Witness for checkURL_classification at a concrete late transport error. -/
theorem checkURL_classification_witness :
    (checkURL cfgTimeout "https://a" envTimeoutAttempt).1.error = "timeout" ∧
    (checkURL cfgTimeout "https://a" envTimeoutAttempt).1.success = false := by
  have h :=
    (checkURL_classification cfgTimeout "https://a" envTimeoutAttempt rfl
      rfl).1 "dial tcp refused" 10 rfl
  simpa using h

/-- C7: in every branch of the outcome classification (an attempt past
parsing and request construction), the result latency is the DNS duration
plus the elapsed response time of the round trip; and a DNS resolution
failure neither aborts the check nor changes the result, while its measured
duration still contributes to the latency. -/
theorem checkURL_latency_sum (cfg : Config) (targetURL : String)
    (env : AttemptEnv) :
    (env.parseOk = true → env.reqCreateOk = true →
      (checkURL cfg targetURL env).1.latency =
        env.dnsDuration + httpElapsed env.outcome) ∧
    (∀ b : Bool,
      checkURL cfg targetURL { env with dnsOk := b } =
        checkURL cfg targetURL env) := by
  constructor
  · intro hp hq
    rcases ho : env.outcome with ⟨msg, rt⟩ | ⟨code, status, rt⟩ <;>
      simp [checkURL, hp, hq, ho, httpElapsed] <;> split_ifs <;> simp
  · intro b
    cases env
    rfl

/-- Witness for checkURL_latency_sum at a concrete attempt. -/
theorem checkURL_latency_sum_witness :
    (checkURL cfgTimeout "https://a" envOkAttempt).1.latency =
      envOkAttempt.dnsDuration + httpElapsed envOkAttempt.outcome :=
  (checkURL_latency_sum cfgTimeout "https://a" envOkAttempt).1 rfl rfl

/-- C10: CheckURLWithRetry yields a present result exactly when the
configured retry count is nonnegative; with Retries < 0 the Go loop body
never runs, zero attempts occur and the nil result is returned (modelled as
none), which the downstream result collection and statistics would
dereference. -/
theorem checkURLWithRetry_nil_on_negative_retries (cfg : Config)
    (targetURL : String) (env : Nat → AttemptEnv) :
    ((CheckURLWithRetry cfg targetURL env).1 = none ↔ cfg.retries < 0) ∧
    (cfg.retries < 0 →
      CheckURLWithRetry cfg targetURL env = (none, 0, [])) := by
  unfold CheckURLWithRetry
  split <;> simp_all

/-- Witness for checkURLWithRetry_nil_on_negative_retries with Retries -1. -/
theorem checkURLWithRetry_nil_on_negative_retries_witness :
    CheckURLWithRetry { DefaultConfig with retries := -1 } "https://a"
      (fun _ => envOkAttempt) = (none, 0, []) :=
  (checkURLWithRetry_nil_on_negative_retries
    { DefaultConfig with retries := -1 } "https://a"
    (fun _ => envOkAttempt)).2 (by decide)

/-- Counterexample to C8 as stated: a chain of exactly 3 redirect responses
is not followed to completion; the client (one initial request already made)
aborts with the redirect policy error instead of reaching the final
response after 4 requests. -/
theorem followChain_three_redirects_fail :
    followChain 3 1 = Except.error "stopped after 3 redirects" ∧
    followChain 3 1 ≠ Except.ok 4 := by
  constructor
  · rfl
  · intro h
    rw [show followChain 3 1 =
          Except.error "stopped after 3 redirects" from rfl] at h
    exact Except.noConfusion h

/-- C8 (amended): the client follows at most 2 redirects (at most 3 requests
in a chain); any chain needing a third redirect hop aborts with the policy
error from CheckRedirect, which surfaces from Client.Do as a transport
error, hence is classified request_failed (or timeout once past the latency
bound). -/
theorem redirect_policy (r : Nat) :
    (r ≤ 2 → followChain r 1 = Except.ok (r + 1)) ∧
    (3 ≤ r → followChain r 1 = Except.error "stopped after 3 redirects") ∧
    (∀ cfg targetURL (env : AttemptEnv) msg rt, env.parseOk = true →
      env.reqCreateOk = true →
      env.outcome = HTTPOutcome.transportError msg rt →
      rt < cfg.maxLatency →
      (checkURL cfg targetURL env).1.error = "request_failed") := by
  refine ⟨?_, ?_, ?_⟩
  · intro hr
    interval_cases r <;> rfl
  · intro hr
    obtain ⟨s, rfl⟩ : ∃ s, r = s + 3 := ⟨r - 3, by omega⟩
    show followChain (s + 3) 1 = _
    simp [followChain, stopAfterRedirects]
  · intro cfg targetURL env msg rt hp hq ho hlt
    have hnot : ¬ cfg.maxLatency ≤ rt := not_le.mpr hlt
    simp [checkURL, hp, hq, ho, hnot]

/-- Witness for redirect_policy: a 2 hop chain completes with 3 requests, a
5 hop chain aborts with the policy error. -/
theorem redirect_policy_witness :
    followChain 2 1 = Except.ok 3 ∧
    followChain 5 1 = Except.error "stopped after 3 redirects" :=
  ⟨(redirect_policy 2).1 (by decide), (redirect_policy 5).2.1 (by decide)⟩

/-- With a nonpositive limit, an initial counter that is nonnegative stays
nonnegative and no allow call is ever granted. -/
lemma rlRun_no_grant_of_limit_nonpos (limit : Int) (hl : limit ≤ 0) :
    ∀ (es : List RLEvent) (count : Int), 0 ≤ count →
      ∀ b ∈ (rlRun limit count es).2, b = false := by
  intro es
  induction es with
  | nil =>
      intro count _ b hb
      simp [rlRun] at hb
  | cons e es ih =>
      intro count hc b hb
      cases e with
      | allowCall =>
          have hnlt : ¬ count < limit := by omega
          simp only [rlRun, allow, if_neg hnlt, List.mem_cons] at hb
          rcases hb with rfl | hb
          · rfl
          · exact ih count hc b hb
      | resetTick =>
          simp only [rlRun] at hb
          exact ih 0 le_rfl b hb

/-- Over a reset free event segment, the final counter equals the initial
counter plus the number of grants, and it never exceeds max limit count. -/
lemma rlRun_noReset_count (limit : Int) :
    ∀ (es : List RLEvent), RLEvent.resetTick ∉ es → ∀ (count : Int),
      (rlRun limit count es).1 =
        count + ((rlRun limit count es).2.count true : Int) ∧
      (rlRun limit count es).1 ≤ max limit count := by
  intro es
  induction es with
  | nil =>
      intro _ count
      simp [rlRun]
  | cons e es ih =>
      intro hmem count
      have hmem' : RLEvent.resetTick ∉ es := fun h => hmem (List.mem_cons_of_mem _ h)
      cases e with
      | allowCall =>
          by_cases hlt : count < limit
          · obtain ⟨h1a, h1b⟩ := ih hmem' (count + 1)
            simp only [rlRun, allow, if_pos hlt]
            constructor
            · simp [List.count_cons]
              omega
            · have hmax : max limit (count + 1) ≤ max limit count := by
                simp only [max_le_iff]
                exact ⟨le_max_left _ _, by omega⟩
              exact le_trans h1b hmax
          · obtain ⟨h1a, h1b⟩ := ih hmem' count
            simp only [rlRun, allow, if_neg hlt]
            constructor
            · simp [List.count_cons]
              omega
            · exact h1b
      | resetTick =>
          exact absurd (List.mem_cons_self _ _) hmem

/-- C3: the rate limiter contract. allow grants exactly when the window
counter is below the limit and a grant increments the counter; a reset tick
zeroes the counter with no carryover; with limit at most 0 no call is ever
granted; over any reset free window started at counter 0 the counter equals
the number of grants so far and the number of grants never exceeds
max limit 0, however many serialized concurrent callers there are. -/
theorem rateLimiter_window (limit count : Int) (es : List RLEvent) :
    ((allow limit count).1 = true ↔ count < limit) ∧
    ((allow limit count).2 = if count < limit then count + 1 else count) ∧
    (rlRun limit count (RLEvent.resetTick :: es) = rlRun limit 0 es) ∧
    (limit ≤ 0 → 0 ≤ count → ∀ b ∈ (rlRun limit count es).2, b = false) ∧
    (RLEvent.resetTick ∉ es →
      (rlRun limit 0 es).1 = ((rlRun limit 0 es).2.count true : Int) ∧
      ((rlRun limit 0 es).2.count true : Int) ≤ max limit 0) := by
  refine ⟨?_, ?_, ?_, ?_, ?_⟩
  · unfold allow
    split <;> simp_all
  · unfold allow
    split <;> simp_all
  · rfl
  · intro hl hc
    exact rlRun_no_grant_of_limit_nonpos limit hl es count hc
  · intro hmem
    have h := rlRun_noReset_count limit es hmem 0
    constructor
    · simpa using h.1
    · have h2 := h.2
      have h1 := h.1
      omega

/-- Witness for rateLimiter_window: limit 1, two competing allow calls in
one window, exactly one grant. -/
theorem rateLimiter_window_witness :
    ((rlRun 1 0 [RLEvent.allowCall, RLEvent.allowCall]).2.count true : Int) ≤
      max 1 0 :=
  ((rateLimiter_window 1 0 [RLEvent.allowCall, RLEvent.allowCall]).2.2.2.2
    (by decide)).2

/-- The progress stream from counter c over a task list of length n is
c+1, c+2, ..., c+n. -/
lemma progressOf_eq (l : List (Option CheckResult)) :
    ∀ c : Int, progressOf l c =
      (List.range l.length).map (fun k : Nat => c + (k : Int) + 1) := by
  induction l with
  | nil => intro c; simp [progressOf]
  | cons h t ih =>
      intro c
      simp only [progressOf, ih (c + 1), List.length_cons,
        List.range_succ_eq_map, List.map_cons, List.map_map]
      congr 1
      · push_cast; ring
      · apply List.map_congr_left
        intro k _
        simp only [Function.comp_apply]
        push_cast
        ring

/-- Last element of the mapped range. -/
lemma range_map_getLast? (f : Nat → Int) :
    ∀ n : Nat, 0 < n → ((List.range n).map f).getLast? = some (f (n - 1)) := by
  intro n hn
  obtain ⟨m, rfl⟩ : ∃ m, n = m + 1 := ⟨n - 1, by omega⟩
  rw [List.range_succ, List.map_append]
  simp

/-- C4: for a batch of N URLs and any completion order of the per URL tasks,
the dispatcher emits exactly N results and a progress stream that is exactly
1, 2, ..., N: N strictly increasing integers ending at N. The streams are
the full finite lists produced before the channels close, which happens only
after every task has finished. -/
theorem dispatcher_streams (cfg : Config) (urls : List String)
    (env : Nat → Nat → AttemptEnv) (order : List Nat)
    (hperm : order.Perm (List.range urls.length)) :
    (CheckURLs cfg urls env order).1.length = urls.length ∧
    (CheckURLs cfg urls env order).2 =
      (List.range urls.length).map (fun k : Nat => (k : Int) + 1) ∧
    (CheckURLs cfg urls env order).2.length = urls.length ∧
    List.Pairwise (fun a b => a < b) (CheckURLs cfg urls env order).2 ∧
    (0 < urls.length →
      (CheckURLs cfg urls env order).2.getLast? =
        some (urls.length : Int)) := by
  have hlen : order.length = urls.length := by
    have := hperm.length_eq
    simpa using this
  have hres : (CheckURLs cfg urls env order).1.length = urls.length := by
    simp [CheckURLs, hlen]
  have hprog : (CheckURLs cfg urls env order).2 =
      (List.range urls.length).map (fun k : Nat => (k : Int) + 1) := by
    show progressOf _ 0 = _
    rw [progressOf_eq]
    rw [List.length_map, hlen]
    apply List.map_congr_left
    intro k _
    ring
  refine ⟨hres, hprog, ?_, ?_, ?_⟩
  · rw [hprog]; simp
  · rw [hprog]
    refine List.Pairwise.map _ ?_ (List.pairwise_lt_range urls.length)
    intro a b hab
    omega
  · intro hp
    rw [hprog, range_map_getLast? _ _ hp]
    congr 1
    push_cast [Nat.cast_sub (by omega : 1 ≤ urls.length)]
    ring

/-- Witness for dispatcher_streams: two URLs finishing in reversed order
still yield 2 results and progress stream 1, 2. -/
theorem dispatcher_streams_witness :
    (CheckURLs DefaultConfig ["https://a", "https://b"]
      (fun _ _ => envTimeoutAttempt) [1, 0]).1.length = 2 ∧
    (CheckURLs DefaultConfig ["https://a", "https://b"]
      (fun _ _ => envTimeoutAttempt) [1, 0]).2 =
      (List.range 2).map (fun k : Nat => (k : Int) + 1) := by
  have h := dispatcher_streams DefaultConfig ["https://a", "https://b"]
    (fun _ _ => envTimeoutAttempt) [1, 0] (by decide)
  exact ⟨h.1, h.2.1⟩

/-- A fold of min from a is an element of a :: l. -/
lemma foldl_min_mem (l : List Int) : ∀ a : Int, l.foldl min a ∈ a :: l := by
  induction l with
  | nil => intro a; simp
  | cons h t ih =>
      intro a
      rw [List.foldl_cons]
      rcases List.mem_cons.mp (ih (min a h)) with he | ht
      · rw [he]
        rcases min_choice a h with h1 | h1 <;> rw [h1] <;> simp
      · simp [List.mem_cons, ht]

/-- A fold of min from a is a lower bound of a and of l. -/
lemma foldl_min_le (l : List Int) :
    ∀ a : Int, l.foldl min a ≤ a ∧ ∀ x ∈ l, l.foldl min a ≤ x := by
  induction l with
  | nil => intro a; simp
  | cons h t ih =>
      intro a
      rw [List.foldl_cons]
      obtain ⟨h1, h2⟩ := ih (min a h)
      refine ⟨le_trans h1 (min_le_left _ _), ?_⟩
      intro x hx
      rcases List.mem_cons.mp hx with rfl | hx
      · exact le_trans h1 (min_le_right _ _)
      · exact h2 x hx

/-- A fold of max from a is an element of a :: l. -/
lemma foldl_max_mem (l : List Int) : ∀ a : Int, l.foldl max a ∈ a :: l := by
  induction l with
  | nil => intro a; simp
  | cons h t ih =>
      intro a
      rw [List.foldl_cons]
      rcases List.mem_cons.mp (ih (max a h)) with he | ht
      · rw [he]
        rcases max_choice a h with h1 | h1 <;> rw [h1] <;> simp
      · simp [List.mem_cons, ht]

/-- A fold of max from a is an upper bound of a and of l. -/
lemma foldl_le_max (l : List Int) :
    ∀ a : Int, a ≤ l.foldl max a ∧ ∀ x ∈ l, x ≤ l.foldl max a := by
  induction l with
  | nil => intro a; simp
  | cons h t ih =>
      intro a
      rw [List.foldl_cons]
      obtain ⟨h1, h2⟩ := ih (max a h)
      refine ⟨le_trans (le_max_left _ _) h1, ?_⟩
      intro x hx
      rcases List.mem_cons.mp hx with rfl | hx
      · exact le_trans (le_max_right _ _) h1
      · exact h2 x hx

/-- minOfList of a nonempty list is its least element. -/
lemma minOfList_spec (l : List Int) (hl : l ≠ []) :
    minOfList l ∈ l ∧ ∀ x ∈ l, minOfList l ≤ x := by
  match l with
  | h :: t =>
      refine ⟨foldl_min_mem t h, ?_⟩
      intro x hx
      rcases List.mem_cons.mp hx with rfl | hx
      · exact (foldl_min_le t x).1
      · exact (foldl_min_le t h).2 x hx

/-- maxOfList of a nonempty list is its greatest element. -/
lemma maxOfList_spec (l : List Int) (hl : l ≠ []) :
    maxOfList l ∈ l ∧ ∀ x ∈ l, x ≤ maxOfList l := by
  match l with
  | h :: t =>
      refine ⟨foldl_max_mem t h, ?_⟩
      intro x hx
      rcases List.mem_cons.mp hx with rfl | hx
      · exact (foldl_le_max t x).1
      · exact (foldl_le_max t h).2 x hx

/-- Counterexample to C5 as stated: on an empty result list with a nonzero
supplied batch duration, CalculateStatistics returns the zero Statistics, so
the recorded total duration is 0, not the supplied argument 5. -/
theorem calculateStatistics_empty_duration_cex :
    (CalculateStatistics [] 5).totalDuration ≠ 5 := by decide

/-- C5 (amended): summarize semantics. total is the number of results;
success and failure counts partition them by the success flag; the exact
success rate is 100 * successCount / total (0 when total = 0); the timing
aggregates are computed strictly over the successful results, the average
being the truncating integer division of their sum by their count, the
minimum and maximum being attained elements that bound all successful
samples, and all six timing fields are zero (no division error) when there
are no successes; the supplied batch duration is recorded when the result
list is nonempty, while an empty result list yields the all zero Statistics,
so the supplied duration is dropped there. -/
theorem calculateStatistics_spec (results : List CheckResult)
    (totalDuration : Int) :
    (CalculateStatistics results totalDuration).totalRequests =
      results.length ∧
    (CalculateStatistics results totalDuration).successCount =
      results.countP (fun r => r.success) ∧
    (CalculateStatistics results totalDuration).failureCount =
      results.countP (fun r => !r.success) ∧
    (CalculateStatistics results totalDuration).successCount +
      (CalculateStatistics results totalDuration).failureCount =
      results.length ∧
    (CalculateStatistics results totalDuration).successRate =
      (if results.length = 0 then 0 else
        100 * (results.countP (fun r => r.success) : ℚ) /
          (results.length : ℚ)) ∧
    (results.countP (fun r => r.success) = 0 →
      (CalculateStatistics results totalDuration).avgResponseTime = 0 ∧
      (CalculateStatistics results totalDuration).minResponseTime = 0 ∧
      (CalculateStatistics results totalDuration).maxResponseTime = 0 ∧
      (CalculateStatistics results totalDuration).avgLatency = 0 ∧
      (CalculateStatistics results totalDuration).minLatency = 0 ∧
      (CalculateStatistics results totalDuration).maxLatency = 0) ∧
    ((results.filter (fun r => r.success)).map (fun r => r.responseTime) ≠
        [] →
      (CalculateStatistics results totalDuration).avgResponseTime =
        Int.tdiv
          ((results.filter (fun r => r.success)).map
            (fun r => r.responseTime)).sum
          (((results.filter (fun r => r.success)).map
            (fun r => r.responseTime)).length : Int) ∧
      (CalculateStatistics results totalDuration).minResponseTime ∈
        (results.filter (fun r => r.success)).map (fun r => r.responseTime) ∧
      (∀ x ∈ (results.filter (fun r => r.success)).map
          (fun r => r.responseTime),
        (CalculateStatistics results totalDuration).minResponseTime ≤ x) ∧
      (CalculateStatistics results totalDuration).maxResponseTime ∈
        (results.filter (fun r => r.success)).map (fun r => r.responseTime) ∧
      (∀ x ∈ (results.filter (fun r => r.success)).map
          (fun r => r.responseTime),
        x ≤ (CalculateStatistics results totalDuration).maxResponseTime)) ∧
    ((results.filter (fun r => r.success)).map (fun r => r.latency) ≠ [] →
      (CalculateStatistics results totalDuration).avgLatency =
        Int.tdiv
          ((results.filter (fun r => r.success)).map (fun r => r.latency)).sum
          (((results.filter (fun r => r.success)).map
            (fun r => r.latency)).length : Int) ∧
      (CalculateStatistics results totalDuration).minLatency ∈
        (results.filter (fun r => r.success)).map (fun r => r.latency) ∧
      (∀ x ∈ (results.filter (fun r => r.success)).map (fun r => r.latency),
        (CalculateStatistics results totalDuration).minLatency ≤ x) ∧
      (CalculateStatistics results totalDuration).maxLatency ∈
        (results.filter (fun r => r.success)).map (fun r => r.latency) ∧
      (∀ x ∈ (results.filter (fun r => r.success)).map (fun r => r.latency),
        x ≤ (CalculateStatistics results totalDuration).maxLatency)) ∧
    (CalculateStatistics results totalDuration).totalDuration =
      (if results.length = 0 then 0 else totalDuration) := by
  by_cases hemp : results.length = 0
  · have hnil : results = [] := List.length_eq_zero.mp hemp
    subst hnil
    simp [CalculateStatistics]
  · have hpos : 0 < results.length := Nat.pos_of_ne_zero hemp
    refine ⟨?_, ?_, ?_, ?_, ?_, ?_, ?_, ?_, ?_⟩
    · simp [CalculateStatistics, hemp]
    · simp [CalculateStatistics, hemp, List.countP_eq_length_filter]
    · simp [CalculateStatistics, hemp, List.countP_eq_length_filter]
    · -- partition of the length
      have hcnt := List.length_eq_countP_add_countP (fun r : CheckResult =>
        r.success) results
      simp only [CalculateStatistics, if_neg hemp]
      simpa [List.countP_eq_length_filter] using hcnt.symm
    · -- exact success rate
      simp only [CalculateStatistics, if_neg hemp, if_pos hpos,
        List.countP_eq_length_filter]
      rw [div_mul_eq_mul_div, mul_comm]
    · -- no successes: all timing fields zero
      intro h0
      have hfil : results.filter (fun r => r.success) = [] :=
        List.length_eq_zero.mp
          (by simpa [List.countP_eq_length_filter] using h0)
      simp [CalculateStatistics, hemp, hfil]
    · -- response time aggregates over successes
      intro hne
      have hlen : 0 < ((results.filter (fun r => r.success)).map
          (fun r => r.responseTime)).length :=
        List.length_pos.mpr hne
      obtain ⟨hmem, hle⟩ := minOfList_spec _ hne
      obtain ⟨hmem2, hle2⟩ := maxOfList_spec _ hne
      simp only [CalculateStatistics, if_neg hemp, if_pos hlen]
      exact ⟨trivial, hmem, hle, hmem2, hle2⟩
    · -- latency aggregates over successes
      intro hne
      have hlen : 0 < ((results.filter (fun r => r.success)).map
          (fun r => r.latency)).length :=
        List.length_pos.mpr hne
      obtain ⟨hmem, hle⟩ := minOfList_spec _ hne
      obtain ⟨hmem2, hle2⟩ := maxOfList_spec _ hne
      simp only [CalculateStatistics, if_neg hemp, if_pos hlen]
      exact ⟨trivial, hmem, hle, hmem2, hle2⟩
    · simp [CalculateStatistics, hemp]

/-- Witness for calculateStatistics_spec at a concrete mixed batch: the
recorded minimum response time is one of the successful samples. -/
theorem calculateStatistics_spec_witness :
    (CalculateStatistics
      [{ responseTime := 10, latency := 12, success := true },
       { responseTime := 4, latency := 6, success := true },
       failedResult] 99).minResponseTime ∈
      (([{ responseTime := 10, latency := 12, success := true },
         { responseTime := 4, latency := 6, success := true },
         failedResult] : List CheckResult).filter
        (fun r => r.success)).map (fun r => r.responseTime) :=
  ((calculateStatistics_spec
    [{ responseTime := 10, latency := 12, success := true },
     { responseTime := 4, latency := 6, success := true },
     failedResult] 99).2.2.2.2.2.2.1 (by decide)).2.1

/-- Full characterization of the retry loop from loop counter a with
remaining iteration budget m and current backoff b: it performs n attempts
with 1 ≤ n ≤ m + 1, returns the result of the last attempt, every attempt
before the last failed retryably, the loop stops early only on a
non retryable outcome, and the recorded sleeps are b, 2b, 4b, ... (one per
attempt after the first if a = 0, one per attempt if a > 0, since the Go
code sleeps before every attempt with positive loop counter). -/
lemma retryLoop_spec (cfg : Config) (targetURL : String)
    (env : Nat → AttemptEnv) :
    ∀ (m a : Nat) (b : Int),
      ∃ n s, retryLoop cfg targetURL env a m b =
          ((checkURL cfg targetURL (env (a + n - 1))).1, n, s) ∧
        1 ≤ n ∧ n ≤ m + 1 ∧
        (∀ k, k < n - 1 →
          shouldStop (checkURL cfg targetURL (env (a + k))).1 = false) ∧
        (shouldStop (checkURL cfg targetURL (env (a + n - 1))).1 = true ∨
          n = m + 1) ∧
        s = (List.range (n - (if a = 0 then 1 else 0))).map
          (fun i => b * 2 ^ i) := by
  intro m
  induction m with
  | zero =>
      intro a b
      refine ⟨1, if a = 0 then [] else [b], ?_, le_rfl, le_rfl, ?_, Or.inr rfl,
        ?_⟩
      · rw [retryLoop]
        by_cases hs : shouldStop (checkURL cfg targetURL (env a)).1 = true <;>
          simp [hs, Nat.add_sub_cancel]
      · intro k hk
        omega
      · by_cases ha : a = 0 <;> simp [ha, List.range_succ]
  | succ m ih =>
      intro a b
      by_cases hs : shouldStop (checkURL cfg targetURL (env a)).1 = true
      · refine ⟨1, if a = 0 then [] else [b], ?_, le_rfl, by omega, ?_, ?_, ?_⟩
        · rw [retryLoop]
          simp [hs, Nat.add_sub_cancel]
        · intro k hk
          omega
        · left
          simpa [Nat.add_sub_cancel] using hs
        · by_cases ha : a = 0 <;> simp [ha, List.range_succ]
      · obtain ⟨n', s', heq, h1, h2, h3, h4, h5⟩ :=
          ih (a + 1) (if a = 0 then b else 2 * b)
        have hidx : a + 1 + n' - 1 = a + (n' + 1) - 1 := by omega
        rw [hidx] at heq h4
        refine ⟨n' + 1, (if a = 0 then [] else [b]) ++ s', ?_, by omega,
          by omega, ?_, ?_, ?_⟩
        · rw [retryLoop]
          simp only [hs, if_false, ite_false, Bool.false_eq_true]
          simp [heq]
        · intro k hk
          match k with
          | 0 => simpa using hs
          | j + 1 =>
              have hj : j < n' - 1 := by omega
              have hstep := h3 j hj
              have hidx2 : a + 1 + j = a + (j + 1) := by omega
              rwa [hidx2] at hstep
        · rcases h4 with h4 | h4
          · exact Or.inl h4
          · exact Or.inr (by omega)
        · have ha1 : ¬ (a + 1 = 0) := by omega
          rw [if_neg ha1] at h5
          by_cases ha : a = 0
          · subst ha
            simp only [Nat.sub_zero] at h5
            simp only [List.nil_append, Nat.add_sub_cancel, if_pos rfl]
            simpa using h5
          · rw [if_neg ha] at h5 ⊢
            rw [h5, if_neg ha, Nat.sub_zero, Nat.sub_zero,
              List.range_succ_eq_map]
            simp only [List.map_cons, List.map_map, List.singleton_append]
            congr 1
            · ring
            · apply List.map_congr_left
              intro i _
              simp only [Function.comp_apply, Nat.succ_eq_add_one]
              ring

/-- C1: with retry count r at least 0, CheckURLWithRetry performs n attempts
with 1 at most n at most r + 1, returns exactly the last attempt result,
every attempt before the last was a retryable failure, it stops early only
when an attempt succeeds or fails non retryably (so invalid_url and
http_error never retry), the backoff sleeps before attempts 2, 3, ... are
1, 2, 4, ..., and against a target whose every attempt times out, exactly
r + 1 attempts occur with sleeps 1, 2, ..., 2 ^ (r - 1). -/
theorem checkURLWithRetry_policy (cfg : Config) (targetURL : String)
    (env : Nat → AttemptEnv) (r : Nat) (hr : cfg.retries = (r : Int)) :
    ∃ n s, CheckURLWithRetry cfg targetURL env =
        (some (checkURL cfg targetURL (env (n - 1))).1, n, s) ∧
      1 ≤ n ∧ n ≤ r + 1 ∧
      (∀ k, k < n - 1 →
        shouldStop (checkURL cfg targetURL (env k)).1 = false) ∧
      (shouldStop (checkURL cfg targetURL (env (n - 1))).1 = true ∨
        n = r + 1) ∧
      s = (List.range (n - 1)).map (fun i => (2 : Int) ^ i) ∧
      (∀ res : CheckResult,
        res.error = "invalid_url" ∨ res.error = "http_error" →
        shouldStop res = true) ∧
      ((∀ k, k ≤ r → (checkURL cfg targetURL (env k)).1.error = "timeout" ∧
          (checkURL cfg targetURL (env k)).1.success = false) →
        n = r + 1 ∧ s = (List.range r).map (fun i => (2 : Int) ^ i)) := by
  have hneg : ¬ cfg.retries < 0 := by omega
  have htn : cfg.retries.toNat = r := by omega
  obtain ⟨n, s, heq, h1, h2, h3, h4, h5⟩ :=
    retryLoop_spec cfg targetURL env cfg.retries.toNat 0 1
  simp only [Nat.zero_add] at heq h3 h4
  rw [htn] at h2 h4
  have hmain : CheckURLWithRetry cfg targetURL env =
      (some (checkURL cfg targetURL (env (n - 1))).1, n, s) := by
    unfold CheckURLWithRetry
    rw [if_neg hneg, heq]
  have hs2 : s = (List.range (n - 1)).map (fun i => (2 : Int) ^ i) := by
    rw [h5]
    simp
  have hnonretry : ∀ res : CheckResult,
      res.error = "invalid_url" ∨ res.error = "http_error" →
      shouldStop res = true := by
    intro res hres
    rcases hres with h | h <;>
      · simp only [shouldStop, h]
        cases hb : res.success <;> rfl
  refine ⟨n, s, hmain, h1, h2, h3, h4, hs2, hnonretry, ?_⟩
  intro hto
  have hstopfalse : ∀ k, k ≤ r →
      shouldStop (checkURL cfg targetURL (env k)).1 = false := by
    intro k hk
    obtain ⟨he, hsu⟩ := hto k hk
    simp [shouldStop, he, hsu]
  have hn : n = r + 1 := by
    rcases h4 with h4 | h4
    · exfalso
      have hk : n - 1 ≤ r := by omega
      rw [hstopfalse (n - 1) hk] at h4
      exact Bool.false_ne_true h4
    · exact h4
  refine ⟨hn, ?_⟩
  rw [hs2, hn, Nat.add_sub_cancel]

/-- Witness for checkURLWithRetry_policy: retries 2 against an attempt that
always times out gives 3 attempts and backoff sleeps 1, 2. -/
theorem checkURLWithRetry_policy_witness :
    (CheckURLWithRetry cfgTimeout "https://a"
      (fun _ => envTimeoutAttempt)).2.1 = 2 + 1 ∧
    (CheckURLWithRetry cfgTimeout "https://a"
      (fun _ => envTimeoutAttempt)).2.2 = [1, 2] := by
  obtain ⟨n, s, heq, -, -, -, -, -, -, hto⟩ :=
    checkURLWithRetry_policy cfgTimeout "https://a"
      (fun _ => envTimeoutAttempt) 2 rfl
  obtain ⟨hn, hs⟩ := hto (fun k _ => by decide)
  subst hn
  rw [heq]
  exact ⟨rfl, by rw [show s = _ from hs]; decide⟩

/-- A successful checkURL result always carries a 2xx status code and an
empty error kind: success is assigned only in the in bound response branch,
from the very comparison 200 at most code under 300, and no error string is
written there. -/
lemma checkURL_success_shape (cfg : Config) (targetURL : String)
    (env : AttemptEnv)
    (h : (checkURL cfg targetURL env).1.success = true) :
    200 ≤ (checkURL cfg targetURL env).1.statusCode ∧
    (checkURL cfg targetURL env).1.statusCode < 300 ∧
    (checkURL cfg targetURL env).1.error = "" := by
  by_cases hp : env.parseOk = true
  case neg =>
    have hp' : env.parseOk = false := by
      revert hp
      cases env.parseOk <;> simp
    simp [checkURL, hp'] at h
  case pos =>
  by_cases hq : env.reqCreateOk = true
  case neg =>
    have hq' : env.reqCreateOk = false := by
      revert hq
      cases env.reqCreateOk <;> simp
    simp [checkURL, hp, hq'] at h
  case pos =>
  rcases ho : env.outcome with ⟨msg, rt⟩ | ⟨code, status, rt⟩
  · simp [checkURL, hp, hq, ho] at h
    split at h <;> simp at h
  · simp only [checkURL, hp, hq, ho] at h ⊢
    split_ifs at h ⊢ <;> simp_all

/-- C6: every result produced by checkURL, by the retry policy, or by the
dispatcher with success true has a status code in [200, 300) and an empty
error kind; the converse does not hold: a 2xx reply arriving past the
latency bound yields a result whose status code is 2xx but whose success is
false with kind timeout. -/
theorem success_invariant :
    (∀ (cfg : Config) (targetURL : String) (env : AttemptEnv),
      (checkURL cfg targetURL env).1.success = true →
      200 ≤ (checkURL cfg targetURL env).1.statusCode ∧
      (checkURL cfg targetURL env).1.statusCode < 300 ∧
      (checkURL cfg targetURL env).1.error = "") ∧
    (∀ (cfg : Config) (targetURL : String) (env : Nat → AttemptEnv)
      (r : CheckResult), (CheckURLWithRetry cfg targetURL env).1 = some r →
      r.success = true →
      200 ≤ r.statusCode ∧ r.statusCode < 300 ∧ r.error = "") ∧
    (∀ (cfg : Config) (urls : List String) (env : Nat → Nat → AttemptEnv)
      (order : List Nat) (o : Option CheckResult),
      o ∈ (CheckURLs cfg urls env order).1 → ∀ r : CheckResult, o = some r →
      r.success = true →
      200 ≤ r.statusCode ∧ r.statusCode < 300 ∧ r.error = "") ∧
    (∃ (cfg : Config) (targetURL : String) (env : AttemptEnv),
      200 ≤ (checkURL cfg targetURL env).1.statusCode ∧
      (checkURL cfg targetURL env).1.statusCode < 300 ∧
      (checkURL cfg targetURL env).1.success = false ∧
      (checkURL cfg targetURL env).1.error = "timeout") := by
  have hretry : ∀ (cfg : Config) (targetURL : String)
      (env : Nat → AttemptEnv) (r : CheckResult),
      (CheckURLWithRetry cfg targetURL env).1 = some r → r.success = true →
      200 ≤ r.statusCode ∧ r.statusCode < 300 ∧ r.error = "" := by
    intro cfg targetURL env r hsome hsucc
    by_cases hneg : cfg.retries < 0
    · unfold CheckURLWithRetry at hsome
      rw [if_pos hneg] at hsome
      exact Option.noConfusion hsome
    · obtain ⟨n, s, heq, -, -, -, -, -⟩ :=
        retryLoop_spec cfg targetURL env cfg.retries.toNat 0 1
      unfold CheckURLWithRetry at hsome
      rw [if_neg hneg, heq] at hsome
      have hr : r = (checkURL cfg targetURL (env (0 + n - 1))).1 :=
        (Option.some_inj.mp hsome).symm
      subst hr
      exact checkURL_success_shape cfg targetURL (env (0 + n - 1)) hsucc
  refine ⟨fun cfg t e h => checkURL_success_shape cfg t e h, hretry, ?_, ?_⟩
  · intro cfg urls env order o ho r hor hsucc
    simp only [CheckURLs, List.mem_map] at ho
    obtain ⟨i, hi, hoeq⟩ := ho
    subst hor
    exact hretry cfg (urls.getD i "") (env i) r hoeq hsucc
  · exact ⟨cfgTimeout, "https://a", envLateOkAttempt, by decide⟩

/-- Witness for success_invariant at a concrete in bound 200 response. -/
theorem success_invariant_witness :
    200 ≤ (checkURL cfgTimeout "https://a" envOkAttempt).1.statusCode ∧
    (checkURL cfgTimeout "https://a" envOkAttempt).1.statusCode < 300 ∧
    (checkURL cfgTimeout "https://a" envOkAttempt).1.error = "" :=
  success_invariant.1 cfgTimeout "https://a" envOkAttempt (by decide)

end HealthCheck
